import Mathlib

/-!
Verification of the ecowitt-collector weather-station pipeline.

The Go sources are embedded shallowly:
* Go `int` is `Int`; Go's `%` on `int` is truncated remainder, `Int.tmod`.
* Go `float64` values are modelled as exact rationals `ℚ`; the float
  computations verified here never come close enough to a rounding boundary
  for the idealisation to change any result.
* fallible Go functions returning `(T, error)` become `Except String T`.
-/

deriving instance DecidableEq for Except

/-- `WindDirections` from `main.go`: the 16 compass point names. -/
def WindDirections : List String :=
  ["N", "NNE", "NE", "ENE", "E", "ESE", "SE", "SSE",
   "S", "SSW", "SW", "WSW", "W", "WNW", "NW", "NNW"]

/-- `offsetDegrees` from `main.go`: if the offset is negative it is first
shifted by 360, then the sum is reduced with Go's `%` (truncated remainder,
`Int.tmod`). -/
def offsetDegrees (i offset : Int) : Int :=
  let off := if offset < 0 then offset + 360 else offset
  Int.tmod (i + off) 360

/-- `windDegreesToName` from `main.go`.  The index computation
`(float64(d) / 22.5) + 0.5` followed by `math.Floor` is modelled over exact
rationals; for integer `d` in `[0, 360]` the real value `(d/22.5) + 0.5` is
never closer than `1/90` to an integer, far above float64 rounding error, so
the rational floor coincides with the float64 floor.  Go's `int(idx)` and
`% len(WindDirections)` become `Int.floor` and `Int.tmod _ 16`. -/
def windDegreesToName (d : Int) : Except String String :=
  if d < 0 ∨ 360 < d then
    Except.error ("invalid wind degrees " ++ toString d)
  else
    let idx : Int := Rat.floor ((d : ℚ) / 22.5 + 0.5)
    Except.ok (WindDirections.getD (Int.toNat (Int.tmod idx 16)) "")

/-- `Rat.floor` (the executable floor used in the embedding) agrees with the
mathematical floor `⌊⌋`. -/
theorem rat_floor_eq_int_floor (q : ℚ) : Rat.floor q = Int.floor q := by
  rw [Rat.floor_def', Rat.floor_def]

/-- Helper: on a nonnegative base angle and an offset not below -360,
`offsetDegrees` agrees with the mathematical residue and lands in [0, 360). -/
theorem offsetDegrees_emod_eq (i offset : Int) (hi : 0 ≤ i) (hoff : -360 ≤ offset) :
    offsetDegrees i offset = (i + offset) % 360 ∧
    0 ≤ offsetDegrees i offset ∧ offsetDegrees i offset < 360 := by
  unfold offsetDegrees
  by_cases h : offset < 0
  · simp only [if_pos h]
    rw [Int.tmod_eq_emod (by omega) (by norm_num)]
    omega
  · simp only [if_neg h]
    rw [Int.tmod_eq_emod (by omega) (by norm_num)]
    omega

/-- C2 counterexample: `offsetDegrees` uses Go's truncated `%`, so a negative
base angle (or an offset below -360) produces a negative result instead of the
mathematical residue in [0, 360). -/
theorem offsetDegrees_mod_counterexample :
    offsetDegrees (-1) 0 = -1 ∧ (((-1 : Int) + 0) % 360 + 360) % 360 = 359 ∧
    offsetDegrees (-1) 0 ≠ (((-1 : Int) + 0) % 360 + 360) % 360 ∧
    offsetDegrees 0 (-721) = -1 ∧ (((0 : Int) + -721) % 360 + 360) % 360 = 359 ∧
    offsetDegrees 0 (-721) ≠ (((0 : Int) + -721) % 360 + 360) % 360 := by
  decide

/-- C2 (amended): for a nonnegative raw angle and an offset not below -360
(the deployment uses raw in [0, 360] and offset -90), `offsetDegrees raw offset`
equals the mathematical value `((raw + offset) mod 360 + 360) mod 360` and is
nonnegative and below 360. -/
theorem offsetDegrees_mod_amended (raw offset : Int)
    (h1 : 0 ≤ raw) (h2 : -360 ≤ offset) :
    offsetDegrees raw offset = ((raw + offset) % 360 + 360) % 360 ∧
    0 ≤ offsetDegrees raw offset ∧ offsetDegrees raw offset < 360 := by
  obtain ⟨he, hl, hu⟩ := offsetDegrees_emod_eq raw offset h1 h2
  refine ⟨?_, hl, hu⟩
  omega

/-- C2 witness: the amended statement at the repository's own test vector
`offsetDegrees 207 (-90) = 117`. -/
theorem offsetDegrees_mod_amended_witness :
    offsetDegrees 207 (-90) = ((207 + -90) % 360 + 360) % 360 ∧
    0 ≤ offsetDegrees 207 (-90) ∧ offsetDegrees 207 (-90) < 360 :=
  offsetDegrees_mod_amended 207 (-90) (by decide) (by decide)

/-- `Int.tmod _ 360` is congruent to its argument mod 360 and lies strictly
between -360 and 360, whatever the argument's sign. -/
theorem tmod_360_bounds (a : Int) :
    a.tmod 360 % 360 = a % 360 ∧ -360 < a.tmod 360 ∧ a.tmod 360 < 360 := by
  refine ⟨?_, ?_, Int.tmod_lt_of_pos a (by norm_num)⟩
  · have h := Int.tmod_add_tdiv a 360
    omega
  · rcases a with (_ | n) | n <;> simp [Int.tmod] <;> omega

/-- C4 counterexample: for offsets above 360 the round trip
`offsetDegrees (offsetDegrees raw o) (-o)` can miss `raw mod 360`: at
`o = 721, raw = 1` it yields -359, and at `o = 400, raw = 321` it yields
-39. -/
theorem offsetDegrees_roundtrip_counterexample :
    offsetDegrees (offsetDegrees 1 721) (-721) = -359 ∧
    (1 : Int) % 360 = 1 ∧
    offsetDegrees (offsetDegrees 1 721) (-721) ≠ (1 : Int) % 360 ∧
    offsetDegrees (offsetDegrees 321 400) (-400) = -39 ∧
    (321 : Int) % 360 = 321 ∧
    offsetDegrees (offsetDegrees 321 400) (-400) ≠ (321 : Int) % 360 := by
  decide

/-- C4 (amended): for every offset `o ≤ 360` — including every negative
offset, however large in magnitude — and every raw angle in `[0, 360]`,
applying `offsetDegrees` with `o` and then with `-o` returns `raw mod 360`;
and re-applying offset 0 is idempotent.  (Only offsets above 360 break the
round trip: there the reverse offset `-o` is shifted by 360 only once and a
negative numerator can reach Go's truncated `%`.) -/
theorem offsetDegrees_roundtrip_amended (raw o : Int)
    (h1 : 0 ≤ raw) (_h2 : raw ≤ 360) (h4 : o ≤ 360) :
    offsetDegrees (offsetDegrees raw o) (-o) = raw % 360 ∧
    offsetDegrees (offsetDegrees raw 0) 0 = offsetDegrees raw 0 := by
  constructor
  · by_cases hneg : o < 0
    · have hin : offsetDegrees raw o = (raw + (o + 360)).tmod 360 := by
        unfold offsetDegrees
        simp only [if_pos hneg]
      obtain ⟨m1, l1, u1⟩ := tmod_360_bounds (raw + (o + 360))
      rw [hin]
      unfold offsetDegrees
      simp only [if_neg (by omega : ¬ (-o < 0))]
      have hp : 0 ≤ (raw + (o + 360)).tmod 360 + -o := by
        by_cases h2 : -360 ≤ o
        · have := Int.tmod_nonneg 360 (by omega : 0 ≤ raw + (o + 360))
          omega
        · omega
      rw [Int.tmod_eq_emod hp (by norm_num)]
      omega
    · have hin : offsetDegrees raw o = (raw + o).tmod 360 := by
        unfold offsetDegrees
        simp only [if_neg hneg]
      rw [hin, Int.tmod_eq_emod (by omega) (by norm_num)]
      unfold offsetDegrees
      by_cases hzero : -o < 0
      · simp only [if_pos hzero]
        rw [Int.tmod_eq_emod (by omega) (by norm_num)]
        omega
      · simp only [if_neg hzero]
        rw [Int.tmod_eq_emod (by omega) (by norm_num)]
        omega
  · obtain ⟨e3, l3, u3⟩ := offsetDegrees_emod_eq raw 0 h1 (by norm_num)
    obtain ⟨e4, l4, u4⟩ :=
      offsetDegrees_emod_eq (offsetDegrees raw 0) 0 l3 (by norm_num)
    rw [e4, e3]
    omega

/-- C4 witness: the amended round trip at an offset far below -360, where
the intermediate angle is negative yet the round trip still recovers the
raw angle. -/
theorem offsetDegrees_roundtrip_amended_witness :
    offsetDegrees (offsetDegrees 5 (-1000)) 1000 = 5 % 360 ∧
    offsetDegrees (offsetDegrees 5 0) 0 = offsetDegrees 5 0 :=
  offsetDegrees_roundtrip_amended 5 (-1000) (by decide) (by decide) (by decide)

/-- Evaluation helper: once the floor of the bucket index is known, the
compass lookup reduces to a plain table access. -/
theorem windDegreesToName_eval (d k : Int) (h0 : 0 ≤ d) (h1 : d ≤ 360)
    (hk : Int.floor ((d : ℚ) / 22.5 + 0.5) = k) :
    windDegreesToName d =
      Except.ok (WindDirections.getD (Int.toNat (Int.tmod k 16)) "") := by
  unfold windDegreesToName
  rw [if_neg (by omega)]
  show Except.ok (WindDirections.getD
    (Int.toNat (Int.tmod (Rat.floor ((d : ℚ) / 22.5 + 0.5)) 16)) "") = _
  rw [rat_floor_eq_int_floor, hk]

/-- C5: the compass lookup maps 1, 359, 0 to "N", 180 to "S", 12 to "NNE",
rejects -1 and 361 with an error naming the value, and in general on [0, 360]
returns `WindDirections[⌊d/22.5 + 0.5⌋ mod 16]`. -/
theorem windDegreesToName_table :
    windDegreesToName 1 = Except.ok "N" ∧
    windDegreesToName 359 = Except.ok "N" ∧
    windDegreesToName 0 = Except.ok "N" ∧
    windDegreesToName 180 = Except.ok "S" ∧
    windDegreesToName 12 = Except.ok "NNE" ∧
    windDegreesToName (-1) = Except.error "invalid wind degrees -1" ∧
    windDegreesToName 361 = Except.error "invalid wind degrees 361" ∧
    ∀ d : Int, 0 ≤ d → d ≤ 360 →
      windDegreesToName d =
        Except.ok (WindDirections.getD
          (Int.toNat (Int.floor ((d : ℚ) / 22.5 + 0.5) % 16)) "") := by
  refine ⟨?_, ?_, ?_, ?_, ?_, rfl, rfl, ?_⟩
  · exact windDegreesToName_eval 1 0 (by norm_num) (by norm_num)
      (by rw [Int.floor_eq_iff]; norm_num)
  · exact windDegreesToName_eval 359 16 (by norm_num) (by norm_num)
      (by rw [Int.floor_eq_iff]; norm_num)
  · exact windDegreesToName_eval 0 0 (by norm_num) (by norm_num)
      (by rw [Int.floor_eq_iff]; norm_num)
  · exact windDegreesToName_eval 180 8 (by norm_num) (by norm_num)
      (by rw [Int.floor_eq_iff]; norm_num)
  · exact windDegreesToName_eval 12 1 (by norm_num) (by norm_num)
      (by rw [Int.floor_eq_iff]; norm_num)
  · intro d h0 h1
    have hfl : 0 ≤ Rat.floor ((d : ℚ) / 22.5 + 0.5) := by
      rw [rat_floor_eq_int_floor, Int.le_floor]
      push_cast
      have : (0 : ℚ) ≤ (d : ℚ) / 22.5 := by positivity
      linarith
    unfold windDegreesToName
    rw [if_neg (by omega)]
    show Except.ok (WindDirections.getD
      (Int.toNat (Int.tmod (Rat.floor ((d : ℚ) / 22.5 + 0.5)) 16)) "") = _
    rw [Int.tmod_eq_emod hfl (by norm_num), rat_floor_eq_int_floor]

/-- C5 witness: the general bucket formula evaluated at the sample wind
direction 196 from the repository's test query. -/
theorem windDegreesToName_table_witness :
    windDegreesToName 196 =
      Except.ok (WindDirections.getD
        (Int.toNat (Int.floor ((196 : ℚ) / 22.5 + 0.5) % 16)) "") :=
  windDegreesToName_table.2.2.2.2.2.2.2 196 (by norm_num) (by norm_num)

/-- C10: the domain check of `windDegreesToName` is inclusive at both ends:
360 is accepted and, like 0, maps to "N". -/
theorem windDegreesToName_boundary :
    windDegreesToName 360 = Except.ok "N" ∧
    windDegreesToName 0 = Except.ok "N" := by
  constructor
  · exact windDegreesToName_eval 360 16 (by norm_num) (by norm_num)
      (by rw [Int.floor_eq_iff]; norm_num)
  · exact windDegreesToName_eval 0 0 (by norm_num) (by norm_num)
      (by rw [Int.floor_eq_iff]; norm_num)

/-- Go `time.Location` as it occurs in this pipeline: the station protocol
carries no zone, so every parsed time is in UTC. -/
inductive GoLoc
  | utc
deriving DecidableEq

/-- A Go `time.Time` restricted to what the pipeline observes: the wall-clock
fields and the location. -/
structure GoTime where
  year : Nat
  month : Nat
  day : Nat
  hour : Nat
  minute : Nat
  second : Nat
  loc : GoLoc
deriving DecidableEq

/-- Go `time.Time.UTC()`: reinterpret the instant in the UTC location.  All
times in this pipeline are already in UTC, for which this only sets the
location marker. -/
def GoTime.toUTC (t : GoTime) : GoTime :=
  { t with loc := GoLoc.utc }

/-- The units the collector converts between: the go-units builtin pressure,
length and temperature units plus the two custom units registered in
`types.go`. -/
inductive GoUnit
  | inHg
  | hectoPascal
  | inch
  | milliMeter
  | fahrenheit
  | celsius
  | milesPerHour
  | metersPerSecond
deriving DecidableEq, BEq

/-- One registered go-units conversion edge. -/
structure Conversion where
  src : GoUnit
  dst : GoUnit
  fn : ℚ → ℚ

/-- go-units `NewRatioConversion`: registers the forward conversion
(multiply by the ratio) and the reverse conversion (divide by it). -/
def NewRatioConversion (a b : GoUnit) (r : ℚ) : List Conversion :=
  [⟨a, b, fun x => x * r⟩, ⟨b, a, fun x => x / r⟩]

/-- The go-units builtin conversion edges used by this program: inHg→hPa
(ratio 33.8638866667), inch→mm (ratio 25.4) and the Fahrenheit↔Celsius
function pair.  Modelled from the go-units library's builtin tables; only
the direct edges exercised by `NewWeatherData` are included. -/
def builtinConversions : List Conversion :=
  NewRatioConversion GoUnit.inHg GoUnit.hectoPascal (338638866667 / 10000000000) ++
  NewRatioConversion GoUnit.inch GoUnit.milliMeter (254 / 10) ++
  [⟨GoUnit.fahrenheit, GoUnit.celsius, fun x => (x - 32) * 5 / 9⟩,
   ⟨GoUnit.celsius, GoUnit.fahrenheit, fun x => x * 9 / 5 + 32⟩]

/-- The conversion registry after the `init` function of `types.go` has run:
the builtin table plus `NewRatioConversion(MilesPerHour, MetersPerSecond,
0.44704)`. -/
def registryAfterInit : List Conversion :=
  builtinConversions ++
  NewRatioConversion GoUnit.milesPerHour GoUnit.metersPerSecond (44704 / 100000)

/-- go-units `Value.Convert`: look up a conversion from `src` to `dst` in the
registry and apply it; with no registered path it returns an error. -/
def Convert (table : List Conversion) (v : ℚ) (src dst : GoUnit) :
    Except String ℚ :=
  match table.find? (fun c => c.src == src && c.dst == dst) with
  | some c => Except.ok (c.fn v)
  | none => Except.error "failed to find conversion path"

/-- The `payload` struct of `types.go`: the raw form fields sent by the
station, in the station's imperial units. -/
structure payload where
  Passkey : String
  BaromAbsIn : ℚ
  BaromRelIn : ℚ
  DailyRainIn : ℚ
  DateUTC : GoTime
  EventRainIn : ℚ
  Freq : String
  Heap : Int
  HourlyRainIn : ℚ
  Humidity : Int
  HumidityIn : Int
  Interval : Int
  MaxDailyGust : ℚ
  Model : String
  MonthlyRainIn : ℚ
  RainRateIn : ℚ
  Runtime : Int
  SolarRadiation : ℚ
  StationType : String
  Tempf : ℚ
  TempInF : ℚ
  TotalRainIn : ℚ
  UV : ℚ
  VPD : ℚ
  WeeklyRainIn : ℚ
  Wh65Batt : ℚ
  WindDir : Int
  WindGustMph : ℚ
  WindSpeedMph : ℚ
  YearlyRainIn : ℚ
deriving DecidableEq

/-- The `WeatherData` struct of `types.go`: the canonical observation.
`Interval` is a Go `time.Duration`, an `int64` count of nanoseconds. -/
structure WeatherData where
  Passkey : String
  AbsolutePressure : ℚ
  RelativePressure : ℚ
  Timestamp : GoTime
  Frequency : String
  Heap : Int
  DailyRain : ℚ
  EventRain : ℚ
  HourlyRain : ℚ
  MonthlyRain : ℚ
  RainRate : ℚ
  TotalRain : ℚ
  WeeklyRain : ℚ
  YearlyRain : ℚ
  OutdoorHumidity : Int
  IndoorHumidity : Int
  Interval : Int
  Model : String
  Runtime : Int
  SolarRadiation : ℚ
  StationType : String
  OutdoorTemperature : ℚ
  IndoorTemperature : ℚ
  UV : ℚ
  BatteryLevel : ℚ
  MaxDailyGust : ℚ
  WindDirection : Int
  WindGust : ℚ
  WindSpeed : ℚ
deriving DecidableEq

/-- `NewWeatherData` from `types.go`: converts each measurement in sequence,
returning the first conversion error, then assembles the `WeatherData`
struct literal.  The source literal does not assign `HourlyRain` (Go zero
value 0) and no field of `WeatherData` receives `VPD`. -/
def NewWeatherData (p : payload) : Except String WeatherData := do
  let absPressure ← Convert registryAfterInit p.BaromAbsIn GoUnit.inHg GoUnit.hectoPascal
  let relPressure ← Convert registryAfterInit p.BaromRelIn GoUnit.inHg GoUnit.hectoPascal
  let dailyRain ← Convert registryAfterInit p.DailyRainIn GoUnit.inch GoUnit.milliMeter
  let eventRain ← Convert registryAfterInit p.EventRainIn GoUnit.inch GoUnit.milliMeter
  let monthlyRain ← Convert registryAfterInit p.MonthlyRainIn GoUnit.inch GoUnit.milliMeter
  let rainRate ← Convert registryAfterInit p.RainRateIn GoUnit.inch GoUnit.milliMeter
  let totalRain ← Convert registryAfterInit p.TotalRainIn GoUnit.inch GoUnit.milliMeter
  let weeklyRain ← Convert registryAfterInit p.WeeklyRainIn GoUnit.inch GoUnit.milliMeter
  let yearlyRain ← Convert registryAfterInit p.YearlyRainIn GoUnit.inch GoUnit.milliMeter
  let outTemp ← Convert registryAfterInit p.Tempf GoUnit.fahrenheit GoUnit.celsius
  let inTemp ← Convert registryAfterInit p.TempInF GoUnit.fahrenheit GoUnit.celsius
  let maxDailyGust ← Convert registryAfterInit p.MaxDailyGust GoUnit.milesPerHour GoUnit.metersPerSecond
  let windGust ← Convert registryAfterInit p.WindGustMph GoUnit.milesPerHour GoUnit.metersPerSecond
  let windSpeed ← Convert registryAfterInit p.WindSpeedMph GoUnit.milesPerHour GoUnit.metersPerSecond
  pure {
    Passkey := p.Passkey
    AbsolutePressure := absPressure
    RelativePressure := relPressure
    Timestamp := GoTime.toUTC p.DateUTC
    Frequency := p.Freq
    Heap := p.Heap
    DailyRain := dailyRain
    EventRain := eventRain
    HourlyRain := 0
    MonthlyRain := monthlyRain
    RainRate := rainRate
    TotalRain := totalRain
    WeeklyRain := weeklyRain
    YearlyRain := yearlyRain
    OutdoorHumidity := p.Humidity
    IndoorHumidity := p.HumidityIn
    Interval := p.Interval * 1000000000
    Model := p.Model
    Runtime := p.Runtime
    SolarRadiation := p.SolarRadiation
    StationType := p.StationType
    OutdoorTemperature := outTemp
    IndoorTemperature := inTemp
    UV := p.UV
    BatteryLevel := p.Wh65Batt
    MaxDailyGust := maxDailyGust
    WindDirection := p.WindDir
    WindGust := windGust
    WindSpeed := windSpeed }

/-- The sample report from the repository's own test query string
(`main_test.go`). -/
def samplePayload : payload where
  Passkey := "LA5ZAQUAHNGEDOOW0DAEROOV8VEZIETI"
  BaromAbsIn := 29.565
  BaromRelIn := 29.920
  DailyRainIn := 0
  DateUTC := ⟨2024, 6, 16, 16, 32, 8, GoLoc.utc⟩
  EventRainIn := 0
  Freq := "868M"
  Heap := 0
  HourlyRainIn := 0
  Humidity := 47
  HumidityIn := 48
  Interval := 60
  MaxDailyGust := 4.47
  Model := "WS2900_V2.02.03"
  MonthlyRainIn := 0
  RainRateIn := 0
  Runtime := 1240
  SolarRadiation := 142.55
  StationType := "EasyWeatherPro_V5.1.3"
  Tempf := 67.8
  TempInF := 70.0
  TotalRainIn := 0
  UV := 1
  VPD := 0.153
  WeeklyRainIn := 0
  Wh65Batt := 0
  WindDir := 196
  WindGustMph := 1.12
  WindSpeedMph := 0.22
  YearlyRainIn := 0

/-- C1 counterexample: `HourlyRainIn` is not carried into the observation.
Two sample payloads that differ only in `HourlyRainIn` (0 versus 1 inch)
both produce `HourlyRain = 0`: the output field is the constant zero, not a
function of the input measurement. -/
theorem newWeatherData_hourlyRain_counterexample :
    ({ samplePayload with HourlyRainIn := 1 } : payload).HourlyRainIn ≠
      samplePayload.HourlyRainIn ∧
    Except.map (fun wd => wd.HourlyRain)
      (NewWeatherData { samplePayload with HourlyRainIn := 1 }) = Except.ok 0 ∧
    Except.map (fun wd => wd.HourlyRain) (NewWeatherData samplePayload) =
      Except.ok 0 := by
  exact ⟨one_ne_zero, rfl, rfl⟩

/-- C1 (amended): every measurement field of the payload except
`HourlyRainIn` and `VPD` is carried into exactly one corresponding field of
the observation as the stated pure function of that field alone;
`WeatherData.HourlyRain` is the constant 0 whatever `HourlyRainIn` was, and
no output field receives `VPD`. -/
theorem newWeatherData_fields_amended (p : payload) :
    NewWeatherData p = Except.ok {
      Passkey := p.Passkey
      AbsolutePressure := p.BaromAbsIn * (338638866667 / 10000000000)
      RelativePressure := p.BaromRelIn * (338638866667 / 10000000000)
      Timestamp := GoTime.toUTC p.DateUTC
      Frequency := p.Freq
      Heap := p.Heap
      DailyRain := p.DailyRainIn * (254 / 10)
      EventRain := p.EventRainIn * (254 / 10)
      HourlyRain := 0
      MonthlyRain := p.MonthlyRainIn * (254 / 10)
      RainRate := p.RainRateIn * (254 / 10)
      TotalRain := p.TotalRainIn * (254 / 10)
      WeeklyRain := p.WeeklyRainIn * (254 / 10)
      YearlyRain := p.YearlyRainIn * (254 / 10)
      OutdoorHumidity := p.Humidity
      IndoorHumidity := p.HumidityIn
      Interval := p.Interval * 1000000000
      Model := p.Model
      Runtime := p.Runtime
      SolarRadiation := p.SolarRadiation
      StationType := p.StationType
      OutdoorTemperature := (p.Tempf - 32) * 5 / 9
      IndoorTemperature := (p.TempInF - 32) * 5 / 9
      UV := p.UV
      BatteryLevel := p.Wh65Batt
      MaxDailyGust := p.MaxDailyGust * (44704 / 100000)
      WindDirection := p.WindDir
      WindGust := p.WindGustMph * (44704 / 100000)
      WindSpeed := p.WindSpeedMph * (44704 / 100000) } := by
  rfl

/-- C3: the registered mph→m/s conversion multiplies by exactly 0.44704 (so
the deviation from `v * 0.44704` is 0, well within 1e-9), is not the
historical 0.447 factor, is not the inverted (division) conversion, and is
the conversion applied to `WindSpeedMph`, `WindGustMph` and `MaxDailyGust`
by `NewWeatherData`. -/
theorem mph_to_ms_conversion :
    (∀ v : ℚ, Convert registryAfterInit v GoUnit.milesPerHour
      GoUnit.metersPerSecond = Except.ok (v * (44704 / 100000))) ∧
    (∀ v : ℚ, ∃ r, Convert registryAfterInit v GoUnit.milesPerHour
      GoUnit.metersPerSecond = Except.ok r ∧
      |r - v * (0.44704 : ℚ)| ≤ 1 / 1000000000) ∧
    Convert registryAfterInit 1 GoUnit.milesPerHour GoUnit.metersPerSecond ≠
      Except.ok (0.447 : ℚ) ∧
    Convert registryAfterInit 1 GoUnit.milesPerHour GoUnit.metersPerSecond ≠
      Except.ok (1 / (0.44704 : ℚ)) ∧
    (∀ p : payload, Except.map (fun wd => wd.WindSpeed) (NewWeatherData p) =
      Except.ok (p.WindSpeedMph * (44704 / 100000))) ∧
    (∀ p : payload, Except.map (fun wd => wd.WindGust) (NewWeatherData p) =
      Except.ok (p.WindGustMph * (44704 / 100000))) ∧
    (∀ p : payload, Except.map (fun wd => wd.MaxDailyGust) (NewWeatherData p) =
      Except.ok (p.MaxDailyGust * (44704 / 100000))) := by
  have hfwd : ∀ v : ℚ, Convert registryAfterInit v GoUnit.milesPerHour
      GoUnit.metersPerSecond = Except.ok (v * (44704 / 100000)) := fun v => rfl
  have hconst : (0.44704 : ℚ) = 44704 / 100000 := by norm_num
  refine ⟨hfwd, ?_, ?_, ?_, fun p => rfl, fun p => rfl, fun p => rfl⟩
  · intro v
    refine ⟨v * (44704 / 100000), hfwd v, ?_⟩
    rw [hconst, sub_self, abs_zero]
    norm_num
  · rw [hfwd 1]
    simp only [ne_eq, Except.ok.injEq]
    norm_num
  · rw [hfwd 1]
    simp only [ne_eq, Except.ok.injEq]
    norm_num

/-- C3 witness: the forward conversion evaluated at 1 mph. -/
theorem mph_to_ms_conversion_witness :
    Convert registryAfterInit 1 GoUnit.milesPerHour GoUnit.metersPerSecond =
      Except.ok (1 * (44704 / 100000)) :=
  mph_to_ms_conversion.1 1

/-- C9: `NewWeatherData` is total — with the registry as it stands after
`init` has registered the mph→m/s conversion, every conversion it requests
resolves, so it returns a weather record (never an error) for every
payload. -/
theorem newWeatherData_total (p : payload) :
    ∃ wd, NewWeatherData p = Except.ok wd :=
  ⟨_, rfl⟩

/-- The numeric value of a decimal digit character, if it is one. -/
def digitVal (c : Char) : Option Nat :=
  if c.isDigit then some (c.toNat - 48) else none

/-- Read exactly two decimal digits (Go's `getnum` with a zero-padded
two-digit layout element). -/
def read2 : List Char → Option (Nat × List Char)
  | c1 :: c2 :: rest =>
    match digitVal c1, digitVal c2 with
    | some d1, some d2 => some (d1 * 10 + d2, rest)
    | _, _ => none
  | _ => none

/-- Read exactly four decimal digits (Go's year parse for layout `2006`). -/
def read4 : List Char → Option (Nat × List Char)
  | c1 :: c2 :: c3 :: c4 :: rest =>
    match digitVal c1, digitVal c2, digitVal c3, digitVal c4 with
    | some d1, some d2, some d3, some d4 =>
      some (((d1 * 10 + d2) * 10 + d3) * 10 + d4, rest)
    | _, _, _, _ => none
  | _ => none

/-- Consume one expected literal separator character. -/
def expectChar (ch : Char) : List Char → Option (List Char)
  | c :: rest => if c = ch then some rest else none
  | _ => none

/-- Gregorian leap-year rule, as in Go's `time` package. -/
def isLeapYear (y : Nat) : Bool :=
  y % 4 == 0 && (y % 100 != 0 || y % 400 == 0)

/-- Days in a month, as validated by Go's `time.Parse`. -/
def daysIn (m y : Nat) : Nat :=
  if m = 2 then (if isLeapYear y then 29 else 28)
  else if m = 4 ∨ m = 6 ∨ m = 9 ∨ m = 11 then 30
  else 31

/-- Core of Go `time.Parse(time.DateTime, ·)`: the layout
`2006-01-02 15:04:05` demands a four-digit year and zero-padded two-digit
month, day, hour, minute and second with the literal separators and no
trailing text; Go then validates the calendar ranges.  The layout carries no
zone, so the result is in UTC. -/
def goTimeParse (cs : List Char) : Option GoTime :=
  match read4 cs with
  | none => none
  | some (y, r1) =>
  match expectChar '-' r1 with
  | none => none
  | some r2 =>
  match read2 r2 with
  | none => none
  | some (mo, r3) =>
  match expectChar '-' r3 with
  | none => none
  | some r4 =>
  match read2 r4 with
  | none => none
  | some (d, r5) =>
  match expectChar ' ' r5 with
  | none => none
  | some r6 =>
  match read2 r6 with
  | none => none
  | some (h, r7) =>
  match expectChar ':' r7 with
  | none => none
  | some r8 =>
  match read2 r8 with
  | none => none
  | some (mi, r9) =>
  match expectChar ':' r9 with
  | none => none
  | some r10 =>
  match read2 r10 with
  | none => none
  | some (sec, r11) =>
  if r11 = [] then
    if 1 ≤ mo ∧ mo ≤ 12 ∧ 1 ≤ d ∧ d ≤ daysIn mo y ∧
        h < 24 ∧ mi < 60 ∧ sec < 60 then
      some ⟨y, mo, d, h, mi, sec, GoLoc.utc⟩
    else none
  else none

/-- `Time.UnmarshalText` from `types.go`: parse the wire string with the
`time.DateTime` layout, propagating Go's parse error. -/
def goParseDateTime (s : String) : Except String GoTime :=
  match goTimeParse s.data with
  | some t => Except.ok t
  | none =>
    Except.error ("parsing time " ++ s ++ " as 2006-01-02 15:04:05: cannot parse")

/-- Go `strconv.ParseInt(s, 10, 64)`: optional sign, one or more decimal
digits, nothing else; values outside the signed 64-bit range are a range
error. -/
def goParseInt (s : String) : Option Int :=
  let sd : Int × List Char :=
    match s.data with
    | '+' :: rest => (1, rest)
    | '-' :: rest => (-1, rest)
    | rest => (1, rest)
  if sd.2.isEmpty then none
  else if sd.2.all Char.isDigit then
    let v : Int :=
      sd.1 * (sd.2.foldl (fun acc c => acc * 10 + (c.toNat - 48)) 0 : Nat)
    if -(2 ^ 63) ≤ v ∧ v ≤ 2 ^ 63 - 1 then some v else none
  else none

/-- The longest decimal-digit prefix and the remainder. -/
def spanDigits (cs : List Char) : List Char × List Char :=
  (cs.takeWhile Char.isDigit, cs.dropWhile Char.isDigit)

/-- The number denoted by a list of decimal digits. -/
def digitsToNat (ds : List Char) : Nat :=
  ds.foldl (fun acc c => acc * 10 + (c.toNat - 48)) 0

/-- Go `strconv.ParseFloat(s, 64)` on the decimal grammar: optional sign,
integer and/or fractional digits, optional decimal exponent, no trailing
text.  (Go additionally accepts `inf`/`nan` tokens, hexadecimal floats and
underscore-separated literals; those denote no finite decimal measurement
and never occur on this wire, and here the exact denoted rational is kept
where Go rounds to the nearest float64.) -/
def goParseFloat (s : String) : Option ℚ :=
  let sd : ℚ × List Char :=
    match s.data with
    | '+' :: r => (1, r)
    | '-' :: r => (-1, r)
    | r => (1, r)
  let ipr := spanDigits sd.2
  let fpr : List Char × List Char :=
    match ipr.2 with
    | '.' :: r => spanDigits r
    | _ => ([], ipr.2)
  if ipr.1.isEmpty ∧ fpr.1.isEmpty then none
  else
    let mantissa : ℚ :=
      (digitsToNat ipr.1 : ℚ) + (digitsToNat fpr.1 : ℚ) / ((10 : ℚ) ^ fpr.1.length)
    match fpr.2 with
    | [] => some (sd.1 * mantissa)
    | e :: r =>
      if e = 'e' ∨ e = 'E' then
        let esr : Int × List Char :=
          match r with
          | '+' :: rr => (1, rr)
          | '-' :: rr => (-1, rr)
          | rr => (1, rr)
        let edr := spanDigits esr.2
        if edr.1.isEmpty ∨ edr.2 ≠ [] then none
        else some (sd.1 * mantissa * (10 : ℚ) ^ (esr.1 * (digitsToNat edr.1 : Int)))
      else none

/-- The Go type of a payload field, as switched on by the decoder. -/
inductive FieldKind
  | floatK
  | intK
  | stringK
  | timeK
deriving DecidableEq

/-- The field names of the `payload` struct of `types.go` with their Go
types: the fixed schema the decoder matches form keys against. -/
def payloadSchema : List (String × FieldKind) :=
  [("Passkey", FieldKind.stringK),
   ("BaromAbsIn", FieldKind.floatK),
   ("BaromRelIn", FieldKind.floatK),
   ("DailyRainIn", FieldKind.floatK),
   ("DateUTC", FieldKind.timeK),
   ("EventRainIn", FieldKind.floatK),
   ("Freq", FieldKind.stringK),
   ("Heap", FieldKind.intK),
   ("HourlyRainIn", FieldKind.floatK),
   ("Humidity", FieldKind.intK),
   ("HumidityIn", FieldKind.intK),
   ("Interval", FieldKind.intK),
   ("MaxDailyGust", FieldKind.floatK),
   ("Model", FieldKind.stringK),
   ("MonthlyRainIn", FieldKind.floatK),
   ("RainRateIn", FieldKind.floatK),
   ("Runtime", FieldKind.intK),
   ("SolarRadiation", FieldKind.floatK),
   ("StationType", FieldKind.stringK),
   ("Tempf", FieldKind.floatK),
   ("TempInF", FieldKind.floatK),
   ("TotalRainIn", FieldKind.floatK),
   ("UV", FieldKind.floatK),
   ("VPD", FieldKind.floatK),
   ("WeeklyRainIn", FieldKind.floatK),
   ("Wh65Batt", FieldKind.floatK),
   ("WindDir", FieldKind.intK),
   ("WindGustMph", FieldKind.floatK),
   ("WindSpeedMph", FieldKind.floatK),
   ("YearlyRainIn", FieldKind.floatK)]

/-- A coerced field value, as produced by the decoder's type switch. -/
inductive PValue
  | f (q : ℚ)
  | i (n : Int)
  | s (v : String)
  | t (tv : GoTime)
deriving DecidableEq

/-- Reflection's `SetFloat`/`SetInt`/`SetString`/`Set` on the field found by
name: store the coerced value into the named payload field. -/
def setField (p : payload) (name : String) (v : PValue) : payload :=
  match name, v with
  | "Passkey", PValue.s x => { p with Passkey := x }
  | "BaromAbsIn", PValue.f x => { p with BaromAbsIn := x }
  | "BaromRelIn", PValue.f x => { p with BaromRelIn := x }
  | "DailyRainIn", PValue.f x => { p with DailyRainIn := x }
  | "DateUTC", PValue.t x => { p with DateUTC := x }
  | "EventRainIn", PValue.f x => { p with EventRainIn := x }
  | "Freq", PValue.s x => { p with Freq := x }
  | "Heap", PValue.i x => { p with Heap := x }
  | "HourlyRainIn", PValue.f x => { p with HourlyRainIn := x }
  | "Humidity", PValue.i x => { p with Humidity := x }
  | "HumidityIn", PValue.i x => { p with HumidityIn := x }
  | "Interval", PValue.i x => { p with Interval := x }
  | "MaxDailyGust", PValue.f x => { p with MaxDailyGust := x }
  | "Model", PValue.s x => { p with Model := x }
  | "MonthlyRainIn", PValue.f x => { p with MonthlyRainIn := x }
  | "RainRateIn", PValue.f x => { p with RainRateIn := x }
  | "Runtime", PValue.i x => { p with Runtime := x }
  | "SolarRadiation", PValue.f x => { p with SolarRadiation := x }
  | "StationType", PValue.s x => { p with StationType := x }
  | "Tempf", PValue.f x => { p with Tempf := x }
  | "TempInF", PValue.f x => { p with TempInF := x }
  | "TotalRainIn", PValue.f x => { p with TotalRainIn := x }
  | "UV", PValue.f x => { p with UV := x }
  | "VPD", PValue.f x => { p with VPD := x }
  | "WeeklyRainIn", PValue.f x => { p with WeeklyRainIn := x }
  | "Wh65Batt", PValue.f x => { p with Wh65Batt := x }
  | "WindDir", PValue.i x => { p with WindDir := x }
  | "WindGustMph", PValue.f x => { p with WindGustMph := x }
  | "WindSpeedMph", PValue.f x => { p with WindSpeedMph := x }
  | "YearlyRainIn", PValue.f x => { p with YearlyRainIn := x }
  | _, _ => p

/-- The decoder's per-kind type coercion switch. -/
def coerce (kind : FieldKind) (raw : String) : Option PValue :=
  match kind with
  | FieldKind.floatK => (goParseFloat raw).map PValue.f
  | FieldKind.intK => (goParseInt raw).map PValue.i
  | FieldKind.stringK => some (PValue.s raw)
  | FieldKind.timeK => (goTimeParse raw.data).map PValue.t

/-- Go `strings.ToLower`: lower-case every rune.  `Char.toLower` maps the
ASCII range, which covers the entire (ASCII) schema; it is executable,
unlike `String.toLower`, whose loop is defined by well-founded recursion.
-/
def goToLower (s : String) : String :=
  String.mk (s.data.map Char.toLower)

/-- One step of `Payload.ParseValues` (the decoder in the repository's
decoder snapshot, applied to the schema of `types.go`): reject a key with no
values, find the unique schema field whose name matches the key ignoring
case (`FieldByNameFunc` with `strings.ToLower`), coerce the first value by
the field's type, and set the field.  All schema fields are exported, so
reflection's `CanSet` check never fires. -/
def parseEntry (p : payload) (key : String) (values : List String) :
    Except String payload :=
  match values with
  | [] => Except.error ("value " ++ key ++ " have no values")
  | rawValue :: _ =>
    match payloadSchema.find? (fun f => goToLower f.1 == goToLower key) with
    | none => Except.error ("no such field: " ++ key)
    | some nk =>
      match coerce nk.2 rawValue with
      | none => Except.error ("error parsing " ++ key)
      | some v => Except.ok (setField p nk.1 v)

/-- `Payload.ParseValues`: fold the form entries, stopping at the first
decode error. -/
def ParseValues (p : payload) (form : List (String × List String)) :
    Except String payload :=
  match form with
  | [] => Except.ok p
  | (key, values) :: rest =>
    match parseEntry p key values with
    | Except.error e => Except.error e
    | Except.ok p2 => ParseValues p2 rest

/-- The decode error an individual form entry provokes, if any: a key with
zero values, a key with no case-insensitive schema match, or a first value
that fails type coercion. -/
def entryErr (key : String) (values : List String) : Option String :=
  match values with
  | [] => some ("value " ++ key ++ " have no values")
  | rawValue :: _ =>
    match payloadSchema.find? (fun f => goToLower f.1 == goToLower key) with
    | none => some ("no such field: " ++ key)
    | some nk =>
      match coerce nk.2 rawValue with
      | none => some ("error parsing " ++ key)
      | some _ => none

/-- A form entry provokes an error from `parseEntry` exactly when `entryErr`
says so, with the same message; the outcome does not depend on the payload
being filled. -/
theorem parseEntry_error_iff (p : payload) (key : String) (values : List String)
    (e : String) :
    parseEntry p key values = Except.error e ↔ entryErr key values = some e := by
  unfold parseEntry entryErr
  cases values with
  | nil => simp
  | cons v vs =>
    cases hf : payloadSchema.find? (fun f => goToLower f.1 == goToLower key) with
    | none => simp
    | some nk =>
      cases hc : coerce nk.2 v with
      | none => simp [hc]
      | some w => simp [hc]

/-- An entry with no `entryErr` decodes successfully. -/
theorem parseEntry_ok_of_entryErr_none (p : payload) (key : String)
    (values : List String) (h : entryErr key values = none) :
    ∃ q, parseEntry p key values = Except.ok q := by
  cases hpe : parseEntry p key values with
  | ok q => exact ⟨q, rfl⟩
  | error e =>
    rw [parseEntry_error_iff] at hpe
    rw [hpe] at h
    cases h

/-- Only the first value of an entry is consulted. -/
theorem parseEntry_take1 (p : payload) (key : String) (values : List String) :
    parseEntry p key (values.take 1) = parseEntry p key values := by
  cases values <;> rfl

/-- Each schema field is the unique case-insensitive match for any casing of
its own name. -/
theorem schema_find_unique (name : String) (kind : FieldKind)
    (hmem : (name, kind) ∈ payloadSchema) (key : String)
    (hkey : goToLower key = goToLower name) :
    payloadSchema.find? (fun f => goToLower f.1 == goToLower key) =
      some (name, kind) := by
  have hpred : (fun f : String × FieldKind => goToLower f.1 == goToLower key) =
      (fun f => goToLower f.1 == goToLower name) := by
    funext f
    rw [hkey]
  rw [hpred]
  have hall : ∀ nk ∈ payloadSchema,
      payloadSchema.find? (fun f => goToLower f.1 == goToLower nk.1) = some nk := by
    decide
  exact hall (name, kind) hmem

/-- Recasing the key of an entry does not change the decoded result (only a
failure message could differ). -/
theorem parseEntry_key_congr (p : payload) (k1 k2 : String)
    (vs : List String) (h : goToLower k1 = goToLower k2) (q : payload) :
    parseEntry p k1 vs = Except.ok q ↔ parseEntry p k2 vs = Except.ok q := by
  unfold parseEntry
  cases vs with
  | nil => simp
  | cons v vs' =>
    have hpred : (fun f : String × FieldKind => goToLower f.1 == goToLower k1) =
        (fun f => goToLower f.1 == goToLower k2) := by
      funext f
      rw [h]
    rw [hpred]
    cases hf : payloadSchema.find? (fun f => goToLower f.1 == goToLower k2) with
    | none => simp
    | some nk =>
      cases hc : coerce nk.2 v with
      | none => simp [hc]
      | some w => simp [hc]

/-- C6: decoding matches keys case-insensitively.  Recasing the keys of a
form (key for key, values unchanged) yields the same decoded payload, and a
single entry whose key is any casing of a schema field name populates
exactly that field with its coerced first value. -/
theorem parseValues_case_insensitive :
    (∀ (p : payload) (form1 form2 : List (String × List String)),
      List.Forall₂ (fun a b => goToLower a.1 = goToLower b.1 ∧ a.2 = b.2)
        form1 form2 →
      ∀ q, ParseValues p form1 = Except.ok q ↔
        ParseValues p form2 = Except.ok q) ∧
    (∀ name kind, (name, kind) ∈ payloadSchema →
      ∀ key, goToLower key = goToLower name →
      ∀ (p : payload) (v : String) (vs : List String) (pv : PValue),
      coerce kind v = some pv →
      ParseValues p [(key, v :: vs)] = Except.ok (setField p name pv)) := by
  constructor
  · intro p form1 form2 hf
    induction hf generalizing p with
    | nil => intro q; exact Iff.rfl
    | @cons kv1 kv2 l1 l2 hab htl ih =>
      intro q
      obtain ⟨hk, hv⟩ := hab
      have hcong := parseEntry_key_congr p kv1.1 kv2.1 kv1.2 hk
      cases hpe : parseEntry p kv1.1 kv1.2 with
      | error e =>
        cases hpe2 : parseEntry p kv2.1 kv2.2 with
        | error e2 =>
          show (ParseValues p (kv1 :: l1) = _) ↔ (ParseValues p (kv2 :: l2) = _)
          rcases kv1 with ⟨ka, va⟩
          rcases kv2 with ⟨kb, vb⟩
          simp only [ParseValues, hpe, hpe2]
          simp
        | ok q2 =>
          exfalso
          rw [← hv] at hpe2
          have h3 := (hcong q2).mpr hpe2
          rw [hpe] at h3
          cases h3
      | ok p2 =>
        have hpe2 : parseEntry p kv2.1 kv2.2 = Except.ok p2 := by
          rw [← hv]
          exact (hcong p2).mp hpe
        show (ParseValues p (kv1 :: l1) = _) ↔ (ParseValues p (kv2 :: l2) = _)
        rcases kv1 with ⟨ka, va⟩
        rcases kv2 with ⟨kb, vb⟩
        simp only [ParseValues]
        rw [show parseEntry p ka va = Except.ok p2 from hpe,
          show parseEntry p kb vb = Except.ok p2 from hpe2]
        exact ih p2 q
  · intro name kind hmem key hkey p v vs pv hco
    have hfind := schema_find_unique name kind hmem key hkey
    simp only [ParseValues, parseEntry, hfind, hco]

/-- C6 witness: the key `TEMPF` (an alternative casing of the schema field
`Tempf`) populates the `Tempf` slot with the parsed value of `67.8`. -/
theorem parseValues_case_insensitive_witness :
    ∃ pv, coerce FieldKind.floatK "67.8" = some pv ∧
      ParseValues samplePayload [("TEMPF", ["67.8"])] =
        Except.ok (setField samplePayload "Tempf" pv) :=
  ⟨_, rfl, parseValues_case_insensitive.2 "Tempf" FieldKind.floatK (by decide)
    "TEMPF" (by decide) samplePayload "67.8" [] _ rfl⟩

/-- A number rendered as two zero-padded decimal digits. -/
def pad2 (n : Nat) : List Char :=
  [Char.ofNat (48 + n / 10), Char.ofNat (48 + n % 10)]

/-- A number rendered as four zero-padded decimal digits. -/
def pad4 (n : Nat) : List Char :=
  [Char.ofNat (48 + n / 1000), Char.ofNat (48 + n / 100 % 10),
   Char.ofNat (48 + n / 10 % 10), Char.ofNat (48 + n % 10)]

/-- Modelled from the spec: a wire timestamp in the literal layout
`YYYY-MM-DD HH:MM:SS` is a calendar date-time rendered with zero-padded
decimal fields and these exact separators. -/
def renderDateTime (y mo d h mi s : Nat) : String :=
  String.mk (pad4 y ++ '-' :: (pad2 mo ++ '-' :: (pad2 d ++ ' ' ::
    (pad2 h ++ ':' :: (pad2 mi ++ ':' :: pad2 s)))))

/-- Modelled from the spec: the calendar ranges a wire timestamp's fields
satisfy (four-digit year, real month/day, 24-hour clock). -/
def validDateTimeParts (y mo d h mi s : Nat) : Prop :=
  y < 10000 ∧ 1 ≤ mo ∧ mo ≤ 12 ∧ 1 ≤ d ∧ d ≤ daysIn mo y ∧
  h < 24 ∧ mi < 60 ∧ s < 60

instance (y mo d h mi s : Nat) : Decidable (validDateTimeParts y mo d h mi s) := by
  unfold validDateTimeParts
  infer_instance

/-- Rendering a digit gives back its value. -/
theorem digitVal_ofNat (k : Nat) (hk : k < 10) :
    digitVal (Char.ofNat (48 + k)) = some k := by
  interval_cases k <;> decide

/-- A character that reads as a digit is that digit's rendering. -/
theorem digitVal_inv {c : Char} {k : Nat} (h : digitVal c = some k) :
    k < 10 ∧ c = Char.ofNat (48 + k) := by
  unfold digitVal at h
  by_cases hd : c.isDigit
  · rw [if_pos hd] at h
    injection h with h
    have hb : 48 ≤ c.toNat ∧ c.toNat ≤ 57 := by
      simp [Char.isDigit] at hd
      exact ⟨hd.1, hd.2⟩
    constructor
    · omega
    · rw [show 48 + k = c.toNat by omega, Char.ofNat_toNat]
  · rw [if_neg hd] at h
    cases h

/-- Reading two digits off a two-digit rendering. -/
theorem read2_pad2 (n : Nat) (h : n < 100) (rest : List Char) :
    read2 (pad2 n ++ rest) = some (n, rest) := by
  show read2 (Char.ofNat (48 + n / 10) :: Char.ofNat (48 + n % 10) :: rest) = _
  simp only [read2, digitVal_ofNat (n / 10) (by omega),
    digitVal_ofNat (n % 10) (by omega)]
  rw [show n / 10 * 10 + n % 10 = n by omega]

/-- Reading four digits off a four-digit rendering. -/
theorem read4_pad4 (n : Nat) (h : n < 10000) (rest : List Char) :
    read4 (pad4 n ++ rest) = some (n, rest) := by
  show read4 (Char.ofNat (48 + n / 1000) :: Char.ofNat (48 + n / 100 % 10) ::
    Char.ofNat (48 + n / 10 % 10) :: Char.ofNat (48 + n % 10) :: rest) = _
  simp only [read4, digitVal_ofNat (n / 1000) (by omega),
    digitVal_ofNat (n / 100 % 10) (by omega),
    digitVal_ofNat (n / 10 % 10) (by omega),
    digitVal_ofNat (n % 10) (by omega)]
  rw [show ((n / 1000 * 10 + n / 100 % 10) * 10 + n / 10 % 10) * 10 + n % 10 = n
    by omega]

/-- A successful two-digit read is an inverse of the rendering. -/
theorem read2_inv {cs rest : List Char} {n : Nat}
    (h : read2 cs = some (n, rest)) : n < 100 ∧ cs = pad2 n ++ rest := by
  match cs, h with
  | c1 :: c2 :: rest', h =>
    simp only [read2] at h
    cases hd1 : digitVal c1 with
    | none => simp [hd1] at h
    | some d1 =>
      cases hd2 : digitVal c2 with
      | none => simp [hd1, hd2] at h
      | some d2 =>
        simp only [hd1, hd2, Option.some.injEq, Prod.mk.injEq] at h
        obtain ⟨hn, hr⟩ := h
        obtain ⟨hl1, hc1⟩ := digitVal_inv hd1
        obtain ⟨hl2, hc2⟩ := digitVal_inv hd2
        refine ⟨by omega, ?_⟩
        rw [hc1, hc2, hr]
        show Char.ofNat (48 + d1) :: Char.ofNat (48 + d2) :: rest =
          Char.ofNat (48 + n / 10) :: Char.ofNat (48 + n % 10) :: rest
        rw [show n / 10 = d1 by omega, show n % 10 = d2 by omega]

/-- A successful four-digit read is an inverse of the rendering. -/
theorem read4_inv {cs rest : List Char} {n : Nat}
    (h : read4 cs = some (n, rest)) : n < 10000 ∧ cs = pad4 n ++ rest := by
  match cs, h with
  | c1 :: c2 :: c3 :: c4 :: rest', h =>
    simp only [read4] at h
    cases hd1 : digitVal c1 with
    | none => simp [hd1] at h
    | some d1 =>
      cases hd2 : digitVal c2 with
      | none => simp [hd1, hd2] at h
      | some d2 =>
        cases hd3 : digitVal c3 with
        | none => simp [hd1, hd2, hd3] at h
        | some d3 =>
          cases hd4 : digitVal c4 with
          | none => simp [hd1, hd2, hd3, hd4] at h
          | some d4 =>
            simp only [hd1, hd2, hd3, hd4, Option.some.injEq,
              Prod.mk.injEq] at h
            obtain ⟨hn, hr⟩ := h
            obtain ⟨hl1, hc1⟩ := digitVal_inv hd1
            obtain ⟨hl2, hc2⟩ := digitVal_inv hd2
            obtain ⟨hl3, hc3⟩ := digitVal_inv hd3
            obtain ⟨hl4, hc4⟩ := digitVal_inv hd4
            refine ⟨by omega, ?_⟩
            rw [hc1, hc2, hc3, hc4, hr]
            show Char.ofNat (48 + d1) :: Char.ofNat (48 + d2) ::
                Char.ofNat (48 + d3) :: Char.ofNat (48 + d4) :: rest =
              Char.ofNat (48 + n / 1000) :: Char.ofNat (48 + n / 100 % 10) ::
                Char.ofNat (48 + n / 10 % 10) :: Char.ofNat (48 + n % 10) :: rest
            rw [show n / 1000 = d1 by omega, show n / 100 % 10 = d2 by omega,
              show n / 10 % 10 = d3 by omega, show n % 10 = d4 by omega]

/-- A successful separator read is an inverse of consing the separator. -/
theorem expectChar_inv {ch : Char} {cs rest : List Char}
    (h : expectChar ch cs = some rest) : cs = ch :: rest := by
  match cs, h with
  | c :: r, h =>
    simp only [expectChar] at h
    by_cases hc : c = ch
    · rw [if_pos hc] at h
      injection h with h
      rw [hc, h]
    · rw [if_neg hc] at h
      cases h

/-- Every month has at most 31 days. -/
theorem daysIn_le (m y : Nat) : daysIn m y ≤ 31 := by
  unfold daysIn
  split
  · split <;> omega
  · split <;> omega

/-- Reading an expected separator off itself. -/
theorem expectChar_cons (c : Char) (rest : List Char) :
    expectChar c (c :: rest) = some rest := by
  simp [expectChar]

/-- Parsing a rendered timestamp recovers its fields, in UTC. -/
theorem goTimeParse_render (y mo dd hh mi sec : Nat)
    (hv : validDateTimeParts y mo dd hh mi sec) :
    goTimeParse (renderDateTime y mo dd hh mi sec).data =
      some ⟨y, mo, dd, hh, mi, sec, GoLoc.utc⟩ := by
  obtain ⟨h1, h2, h3, h4, h5, h6, h7, h8⟩ := hv
  have hd31 := daysIn_le mo y
  show goTimeParse (pad4 y ++ '-' :: (pad2 mo ++ '-' :: (pad2 dd ++ ' ' ::
    (pad2 hh ++ ':' :: (pad2 mi ++ ':' :: (pad2 sec ++ [])))))) = _
  simp only [goTimeParse, read4_pad4 y h1, expectChar_cons,
    read2_pad2 mo (by omega), read2_pad2 dd (by omega),
    read2_pad2 hh (by omega), read2_pad2 mi (by omega),
    read2_pad2 sec (by omega)]
  rw [if_pos trivial, if_pos ⟨h2, h3, h4, h5, h6, h7, h8⟩]

/-- A successfully parsed timestamp has valid calendar fields, is in UTC,
and its input was exactly the rendering of those fields. -/
theorem goTimeParse_inv {cs : List Char} {t : GoTime}
    (h : goTimeParse cs = some t) :
    validDateTimeParts t.year t.month t.day t.hour t.minute t.second ∧
    t.loc = GoLoc.utc ∧
    cs = (renderDateTime t.year t.month t.day t.hour t.minute t.second).data := by
  unfold goTimeParse at h
  cases e1 : read4 cs with
  | none => rw [e1] at h; simp at h
  | some yr =>
    obtain ⟨y, r1⟩ := yr
    simp only [e1] at h
    cases e2 : expectChar '-' r1 with
    | none => rw [e2] at h; simp at h
    | some r2 =>
      simp only [e2] at h
      cases e3 : read2 r2 with
      | none => rw [e3] at h; simp at h
      | some mor =>
        obtain ⟨mo, r3⟩ := mor
        simp only [e3] at h
        cases e4 : expectChar '-' r3 with
        | none => rw [e4] at h; simp at h
        | some r4 =>
          simp only [e4] at h
          cases e5 : read2 r4 with
          | none => rw [e5] at h; simp at h
          | some ddr =>
            obtain ⟨dd, r5⟩ := ddr
            simp only [e5] at h
            cases e6 : expectChar ' ' r5 with
            | none => rw [e6] at h; simp at h
            | some r6 =>
              simp only [e6] at h
              cases e7 : read2 r6 with
              | none => rw [e7] at h; simp at h
              | some hhr =>
                obtain ⟨hh, r7⟩ := hhr
                simp only [e7] at h
                cases e8 : expectChar ':' r7 with
                | none => rw [e8] at h; simp at h
                | some r8 =>
                  simp only [e8] at h
                  cases e9 : read2 r8 with
                  | none => rw [e9] at h; simp at h
                  | some mir =>
                    obtain ⟨mi, r9⟩ := mir
                    simp only [e9] at h
                    cases e10 : expectChar ':' r9 with
                    | none => rw [e10] at h; simp at h
                    | some r10 =>
                      simp only [e10] at h
                      cases e11 : read2 r10 with
                      | none => rw [e11] at h; simp at h
                      | some secr =>
                        obtain ⟨sec, r11⟩ := secr
                        simp only [e11] at h
                        by_cases hnil : r11 = ([] : List Char)
                        · rw [if_pos hnil] at h
                          by_cases hrange : 1 ≤ mo ∧ mo ≤ 12 ∧ 1 ≤ dd ∧
                              dd ≤ daysIn mo y ∧ hh < 24 ∧ mi < 60 ∧ sec < 60
                          · rw [if_pos hrange] at h
                            injection h with h
                            obtain ⟨hy, hcs1⟩ := read4_inv e1
                            have hr1 := expectChar_inv e2
                            obtain ⟨hmo, hcs2⟩ := read2_inv e3
                            have hr3 := expectChar_inv e4
                            obtain ⟨hdd, hcs3⟩ := read2_inv e5
                            have hr5 := expectChar_inv e6
                            obtain ⟨hhh, hcs4⟩ := read2_inv e7
                            have hr7 := expectChar_inv e8
                            obtain ⟨hmi, hcs5⟩ := read2_inv e9
                            have hr9 := expectChar_inv e10
                            obtain ⟨hsec, hcs6⟩ := read2_inv e11
                            subst h
                            refine ⟨?_, rfl, ?_⟩
                            · show y < 10000 ∧ 1 ≤ mo ∧ mo ≤ 12 ∧ 1 ≤ dd ∧
                                dd ≤ daysIn mo y ∧ hh < 24 ∧ mi < 60 ∧ sec < 60
                              exact ⟨hy, hrange⟩
                            · show cs = pad4 y ++ '-' :: (pad2 mo ++ '-' ::
                                (pad2 dd ++ ' ' :: (pad2 hh ++ ':' ::
                                (pad2 mi ++ ':' :: pad2 sec))))
                              rw [hcs1, hr1, hcs2, hr3, hcs3, hr5, hcs4, hr7,
                                hcs5, hr9, hcs6, hnil]
                              simp
                          · rw [if_neg hrange] at h
                            cases h
                        · rw [if_neg hnil] at h
                          cases h

